import Mathlib

/-!
Verification of the employee record-store façade in `sqlite_demo.py`.

The script keeps a single SQLite table `employees (first text, last text,
pay integer)` with no primary key, no uniqueness constraint and no index,
and exposes four wrapper functions over a shared connection/cursor:

* `insert_emp(emp)`       — `INSERT INTO employees VALUES (:first, :last, :pay)`
* `get_emps_by_name(l)`   — `SELECT * FROM employees WHERE last=:last` + `fetchall()`
* `update_pay(emp, pay)`  — `UPDATE employees SET pay=:pay WHERE last=:last AND first=:first`
* `remove_emp(emp)`       — `DELETE FROM employees WHERE first=:first AND last=:last`

We embed the table as the list of its rows in rowid (insertion) order:
on a fresh table with only appends, SQLite assigns strictly increasing
rowids and a full-scan `SELECT` without `ORDER BY` returns rows in rowid
order, so `INSERT` is modelled as appending at the end of the list and
the scans (`SELECT`/`UPDATE`/`DELETE`) as order-preserving traversals.
The three mutating wrappers run their single statement inside
`with conn:`, whose commit-on-success / rollback-on-error semantics is
modelled by `withConn` below.
-/

/-- One row of the `employees` table, and equally the `Employee` value the
caller builds before each operation (the script only ever reads the
attributes `emp.first`, `emp.last`, `emp.pay` from it). -/
structure Employee where
  first : String
  last : String
  pay : Int
deriving DecidableEq, Repr

/-- The `employees` table: its rows in rowid (insertion) order. -/
abbrev Table := List Employee

/-- `insert_emp(emp)`: `INSERT INTO employees VALUES (:first, :last, :pay)`
appends one row at the end of the table. -/
def insert_emp (emp : Employee) (t : Table) : Table :=
  t ++ [emp]

/-- `get_emps_by_name(lastname)`: `SELECT * FROM employees WHERE last=:last`
followed by `fetchall()` — the rows whose `last` column equals `lastname`,
in storage order. -/
def get_emps_by_name (lastname : String) (t : Table) : List Employee :=
  t.filter (fun r => r.last == lastname)

/-- `update_pay(emp, pay)`:
`UPDATE employees SET pay=:pay WHERE last=:last AND first=:first` —
every row whose `last` and `first` both match `emp` gets its `pay`
column set to `pay`; every other row is left as is. -/
def update_pay (emp : Employee) (pay : Int) (t : Table) : Table :=
  t.map (fun r =>
    if r.last == emp.last && r.first == emp.first then
      Employee.mk r.first r.last pay
    else r)

/-- `remove_emp(emp)`:
`DELETE FROM employees WHERE first=:first AND last=:last` — keeps
exactly the rows whose `first` or `last` differs from `emp`. -/
def remove_emp (emp : Employee) (t : Table) : Table :=
  t.filter (fun r => !(r.first == emp.first && r.last == emp.last))

/-- A sequence of `insert_emp` calls starting from table state `t`. -/
def insert_all (emps : List Employee) (t : Table) : Table :=
  emps.foldl (fun acc e => insert_emp e acc) t

/-- The `with conn:` block wrapping each mutating statement.  A sqlite3
connection used as a context manager commits the transaction when the
body completes normally and rolls it back (leaving the table unchanged)
when the body raises, re-raising the error.  The body — here the single
`c.execute` call — is modelled as a function that either produces the
new table state or fails with a storage-engine error message; the result
pairs the outcome seen by the caller with the table state afterwards. -/
def withConn (body : Table → Except String Table) (t : Table) :
    Except String Unit × Table :=
  match body t with
  | Except.ok t2 => (Except.ok (), t2)
  | Except.error e => (Except.error e, t)

/-- Claim C1: inserting the record `(f, l, p)` into any table state and then
querying by last name `l` returns a result sequence containing a row equal
to `(f, l, p)` — all three fields match the inserted values exactly. -/
theorem insert_then_query_contains (f l : String) (p : Int) (t : Table) :
    Employee.mk f l p ∈ get_emps_by_name l (insert_emp (Employee.mk f l p) t) := by
  simp [get_emps_by_name, insert_emp, List.mem_filter]

/-- Claim C2: inserting `(f, l, p)`, then running `update_pay` with that
record and new pay `p2`, then querying by last name `l`, yields among the
results a record whose pay is `p2` and whose first and last names are
still `f` and `l`. -/
theorem insert_update_then_query (f l : String) (p p2 : Int) (t : Table) :
    Employee.mk f l p2 ∈
      get_emps_by_name l
        (update_pay (Employee.mk f l p) p2 (insert_emp (Employee.mk f l p) t)) := by
  have h : update_pay (Employee.mk f l p) p2 (insert_emp (Employee.mk f l p) t)
      = update_pay (Employee.mk f l p) p2 t ++ [Employee.mk f l p2] := by
    simp [update_pay, insert_emp]
  rw [h]
  simp [get_emps_by_name, List.mem_filter]

/-- Claim C3: after `remove_emp` on record `(f, l, p)`, querying by last
name `l` returns no row whose first name is `f` and last name is `l`. -/
theorem delete_then_query_absent (f l : String) (p : Int) (t : Table) :
    ∀ r ∈ get_emps_by_name l (remove_emp (Employee.mk f l p) t),
      ¬(r.first = f ∧ r.last = l) := by
  intro r hr
  simp only [get_emps_by_name, remove_emp, List.mem_filter, List.filter_filter] at hr
  intro hc
  rcases hr with ⟨-, hpred⟩
  simp [hc.1, hc.2] at hpred

theorem delete_then_query_absent_witness :
    ¬((Employee.mk "Jane" "Doe" 90000).first = "John" ∧
      (Employee.mk "Jane" "Doe" 90000).last = "Doe") :=
  delete_then_query_absent "John" "Doe" 80000
    [Employee.mk "John" "Doe" 80000, Employee.mk "Jane" "Doe" 90000]
    (Employee.mk "Jane" "Doe" 90000) (by decide)

/-- Claim C4: `update_pay emp p2` keeps the number of rows and the position
of every row; a row whose `last` and `first` both match `emp` gets pay
`p2`, every other row keeps its pay, and the `first` and `last` fields of
every row are unchanged. -/
theorem update_pay_frame (emp : Employee) (p2 : Int) (t : Table) :
    (update_pay emp p2 t).length = t.length ∧
    ∀ (i : Nat) (r r2 : Employee), t[i]? = some r →
      (update_pay emp p2 t)[i]? = some r2 →
      r2.first = r.first ∧ r2.last = r.last ∧
      r2.pay = (if r.last = emp.last ∧ r.first = emp.first then p2 else r.pay) := by
  constructor
  · simp [update_pay]
  · intro i r r2 hr hr2
    simp only [update_pay, List.getElem?_map, hr, Option.map_some] at hr2
    by_cases h : r.last = emp.last ∧ r.first = emp.first
    · simp [h.1, h.2] at hr2
      subst hr2
      simp [h]
    · have hb : (r.last == emp.last && r.first == emp.first) = false := by
        rcases not_and_or.mp h with h1 | h1 <;> simp [h1]
      simp [hb] at hr2
      subst hr2
      simp [h]

theorem update_pay_frame_witness :
    (Employee.mk "John" "Doe" 80000).first = (Employee.mk "John" "Doe" 80000).first ∧
    (Employee.mk "John" "Doe" 80000).last = (Employee.mk "John" "Doe" 80000).last ∧
    (Employee.mk "John" "Doe" 80000).pay =
      (if (Employee.mk "John" "Doe" 80000).last = "Doe" ∧
          (Employee.mk "John" "Doe" 80000).first = "Jane"
       then (95000 : Int) else (Employee.mk "John" "Doe" 80000).pay) :=
  (update_pay_frame (Employee.mk "Jane" "Doe" 90000) 95000
      [Employee.mk "John" "Doe" 80000, Employee.mk "Jane" "Doe" 90000]).2
    0 (Employee.mk "John" "Doe" 80000) (Employee.mk "John" "Doe" 80000)
    (by decide) (by decide)

/-- Claim C5: each mutating operation runs its single statement inside
`with conn:` — if the statement raises a storage-engine error, the
transaction is rolled back (the table state afterwards is the starting
state) and that same error propagates to the caller; if it completes
normally, the transaction commits and the caller sees the new state —
never a partial application. -/
theorem scoped_transaction_atomic (exec : Table → Except String Table) (t : Table) :
    (∀ e, exec t = Except.error e → withConn exec t = (Except.error e, t)) ∧
    (∀ t2, exec t = Except.ok t2 → withConn exec t = (Except.ok (), t2)) := by
  constructor
  · intro e he
    simp [withConn, he]
  · intro t2 ht
    simp [withConn, ht]

theorem scoped_transaction_atomic_witness :
    withConn (fun _ => Except.error "disk failure") ([] : Table)
      = (Except.error "disk failure", ([] : Table)) ∧
    withConn (fun t => Except.ok (insert_emp (Employee.mk "John" "Doe" 80000) t))
        ([] : Table)
      = (Except.ok (), [Employee.mk "John" "Doe" 80000]) :=
  ⟨(scoped_transaction_atomic (fun _ => Except.error "disk failure") []).1
      "disk failure" rfl,
   (scoped_transaction_atomic
      (fun t => Except.ok (insert_emp (Employee.mk "John" "Doe" 80000) t)) []).2
      [Employee.mk "John" "Doe" 80000] rfl⟩

/-- Claim C6: when no row of the table has `last` equal to `l`,
`get_emps_by_name l` returns the empty sequence (the query itself never
raises — `fetchall` simply yields an empty list). -/
theorem query_no_match_empty (l : String) (t : Table)
    (h : ∀ r ∈ t, r.last ≠ l) :
    get_emps_by_name l t = [] := by
  simp only [get_emps_by_name, List.filter_eq_nil_iff]
  intro r hr
  simp [h r hr]

theorem query_no_match_empty_witness :
    get_emps_by_name "Smith"
      [Employee.mk "John" "Doe" 80000, Employee.mk "Jane" "Doe" 90000] = [] :=
  query_no_match_empty "Smith"
    [Employee.mk "John" "Doe" 80000, Employee.mk "Jane" "Doe" 90000]
    (by decide)

/-- Claim C7: `remove_emp` is idempotent on an identity — deleting the same
record twice leaves the same table state as deleting it once (the second
call matches zero rows and is a silent no-op, not an error). -/
theorem remove_emp_idempotent (emp : Employee) (t : Table) :
    remove_emp emp (remove_emp emp t) = remove_emp emp t := by
  simp only [remove_emp, List.filter_eq_self]
  intro r hr
  exact (List.mem_filter.mp hr).2

/-- Claim C8: the table has no uniqueness constraint — inserting a record
whose `(first, last, pay)` triple already appears as a row completes
normally and afterwards the table holds one more copy of that row. -/
theorem insert_duplicate_adds_copy (emp : Employee) (t : Table)
    (_h : emp ∈ t) :
    List.count emp (insert_emp emp t) = List.count emp t + 1 := by
  simp [insert_emp]

theorem insert_duplicate_adds_copy_witness :
    List.count (Employee.mk "John" "Doe" 80000)
      (insert_emp (Employee.mk "John" "Doe" 80000) [Employee.mk "John" "Doe" 80000])
    = List.count (Employee.mk "John" "Doe" 80000) [Employee.mk "John" "Doe" 80000] + 1 :=
  insert_duplicate_adds_copy (Employee.mk "John" "Doe" 80000)
    [Employee.mk "John" "Doe" 80000] (by decide)

theorem insert_all_eq_append (emps : List Employee) (t : Table) :
    insert_all emps t = t ++ emps := by
  induction emps generalizing t with
  | nil => simp [insert_all]
  | cons e es ih =>
    show insert_all es (insert_emp e t) = t ++ e :: es
    rw [ih, insert_emp]
    simp

/-- Claim C9: on the fresh table (no primary key, no ORDER BY) built by a
sequence of inserts, `get_emps_by_name l` returns exactly the inserted
records whose last name is `l`, in insertion order. -/
theorem query_in_insertion_order (emps : List Employee) (l : String) :
    get_emps_by_name l (insert_all emps ([] : Table))
      = emps.filter (fun r => r.last == l) := by
  rw [insert_all_eq_append]
  simp [get_emps_by_name]

/-- Claim C10: every façade operation is deterministic — from equal table
states with equal arguments, the two runs produce equal table states and
`get_emps_by_name` returns equal result sequences. -/
theorem operations_deterministic (emp : Employee) (l : String) (p2 : Int)
    (t1 t2 : Table) (h : t1 = t2) :
    insert_emp emp t1 = insert_emp emp t2 ∧
    get_emps_by_name l t1 = get_emps_by_name l t2 ∧
    update_pay emp p2 t1 = update_pay emp p2 t2 ∧
    remove_emp emp t1 = remove_emp emp t2 := by
  subst h
  exact ⟨rfl, rfl, rfl, rfl⟩

theorem operations_deterministic_witness :
    insert_emp (Employee.mk "Jane" "Doe" 90000) [] =
      insert_emp (Employee.mk "Jane" "Doe" 90000) [] ∧
    get_emps_by_name "Doe" [] = get_emps_by_name "Doe" [] ∧
    update_pay (Employee.mk "Jane" "Doe" 90000) 95000 [] =
      update_pay (Employee.mk "Jane" "Doe" 90000) 95000 [] ∧
    remove_emp (Employee.mk "Jane" "Doe" 90000) [] =
      remove_emp (Employee.mk "Jane" "Doe" 90000) [] :=
  operations_deterministic (Employee.mk "Jane" "Doe" 90000) "Doe" 95000 [] [] rfl
